import Mathlib

/-!
Verification of the real-time signaling coordinator
(`backend/src/signaling.js`): lobby store, room membership, admission
protocol and WebRTC relay, shallowly embedded as a state machine.

Sockets carry the fields the server attaches (`userId`, `displayName`,
`roomId`) plus their socket.io group membership (`joinedRooms`).  The
lobby `Map<roomId, Array<{socketId,userId,displayName}>>` is an
association list.  The external room directory (`getRoom`) is a
function that may return a room, no room, or throw.  Each event handler
returns the new server state together with the list of emitted events.
-/

namespace Signaling

/-- One pending join request stored in the lobby:
`{ socketId, userId, displayName }`. -/
structure PendingEntry where
  socketId : String
  userId : String
  displayName : Option String
deriving DecidableEq, Repr

/-- The external room record; the coordinator only reads `created_by`. -/
structure Room where
  created_by : String
deriving DecidableEq, Repr

/-- One live connection: the socket id, the Clerk identity attached by the
auth middleware, the fields the handlers set (`displayName`, `roomId`),
and the socket.io rooms the socket has joined. -/
structure Socket where
  id : String
  userId : String
  displayName : Option String
  roomId : Option String
  joinedRooms : List String
deriving DecidableEq, Repr

/-- The lobby `Map`, as an association list from room id to pending list. -/
abbrev Lobby := List (String × List PendingEntry)

/-- The whole in-memory server state: live sockets plus the lobby. -/
structure ServerState where
  sockets : List Socket
  lobby : Lobby
deriving DecidableEq, Repr

/-- The room directory: `getRoom` may return a room, return nothing, or
throw (the `Except.error` case). -/
abbrev Dir := String → Except Unit (Option Room)

/-- `lobby.get(roomId)` on the association list (first matching key). -/
def lobbyGet (L : Lobby) (roomId : String) : Option (List PendingEntry) :=
  match L with
  | [] => none
  | p :: rest => if p.1 == roomId then some p.2 else lobbyGet rest roomId

/-- `lobby.set(roomId, l)`: replace the existing entry in place, or append
a new entry (JS `Map.set` keeps insertion order). -/
def lobbySet (L : Lobby) (roomId : String) (l : List PendingEntry) : Lobby :=
  match L with
  | [] => [(roomId, l)]
  | p :: rest => if p.1 == roomId then (roomId, l) :: rest else p :: lobbySet rest roomId l

/-- `lobby.delete(roomId)`. -/
def lobbyDelete (L : Lobby) (roomId : String) : Lobby :=
  match L with
  | [] => []
  | p :: rest => if p.1 == roomId then lobbyDelete rest roomId else p :: lobbyDelete rest roomId

/-- `addToLobby(roomId, socketId, userId, displayName)`: create the list if
absent, skip duplicates of the same socket id, else push at the end. -/
def addToLobby (L : Lobby) (roomId socketId userId : String)
    (displayName : Option String) : Lobby :=
  match lobbyGet L roomId with
  | none => lobbySet L roomId [⟨socketId, userId, displayName⟩]
  | some list =>
    if list.any (fun p => p.socketId == socketId) then L
    else lobbySet L roomId (list ++ [⟨socketId, userId, displayName⟩])

/-- The `findIndex` / `splice(idx, 1)` pair in `removeFromLobby`: drop the
first entry whose socket id matches, keep the rest. -/
def spliceOut (l : List PendingEntry) (socketId : String) : List PendingEntry :=
  match l with
  | [] => []
  | p :: rest => if p.socketId == socketId then rest else p :: spliceOut rest socketId

/-- `removeFromLobby(roomId, socketId)`: no-op when the room has no list;
otherwise remove the matching entry and delete the room entry entirely
once the list is empty. -/
def removeFromLobby (L : Lobby) (roomId socketId : String) : Lobby :=
  match lobbyGet L roomId with
  | none => L
  | some list =>
    let list2 := spliceOut list socketId
    if list2.length == 0 then lobbyDelete L roomId
    else lobbySet L roomId list2

/-- `getPendingForRoom(roomId)`: the stored list, or `[]` if absent. -/
def getPendingForRoom (L : Lobby) (roomId : String) : List PendingEntry :=
  (lobbyGet L roomId).getD []

/-- `io.sockets.sockets.get(sid)` (first socket with that id). -/
def findSocket (st : ServerState) (sid : String) : Option Socket :=
  st.sockets.find? (fun s => s.id == sid)

/-- Mutate the socket with the given id in place. -/
def updateSocket (st : ServerState) (sid : String) (f : Socket → Socket) : ServerState :=
  { st with sockets := st.sockets.map (fun s => if s.id == sid then f s else s) }

/-- The events the coordinator emits to clients. -/
inductive Ev where
  | joinError (message : String)
  | roomJoined (roomId : String) (isOwner : Bool)
  | userJoined (userId socketId : String) (displayName : Option String)
  | userLeft (userId socketId : String) (displayName : Option String)
  | pendingRequests (pending : List PendingEntry)
  | pendingJoinRequest (socketId userId : String) (displayName : Option String)
  | waitingForHost
  | joinRejected
  | youWereKicked
  | offer (sender sdp : String)
  | answer (sender sdp : String)
  | iceCandidate (sender candidate : String)
deriving DecidableEq, Repr

/-- One delivered event: target socket id plus payload. -/
structure Emit where
  target : String
  ev : Ev
deriving DecidableEq, Repr

/-- `socket.to(roomId).emit(e)`: every socket that joined `roomId` except
the sender. -/
def socketToRoom (st : ServerState) (roomId senderId : String) (e : Ev) : List Emit :=
  (st.sockets.filter (fun s => s.joinedRooms.contains roomId && s.id != senderId)).map
    (fun s => ⟨s.id, e⟩)

/-- `io.to(x).emit(e)`: every socket in the socket.io room `x`; each socket
is implicitly in a personal room named by its own id. -/
def ioTo (st : ServerState) (x : String) (e : Ev) : List Emit :=
  (st.sockets.filter (fun s => s.id == x || s.joinedRooms.contains x)).map
    (fun s => ⟨s.id, e⟩)

/-- `socket.join(roomId)`: socket.io room sets ignore duplicates. -/
def joinRoomList (l : List String) (roomId : String) : List String :=
  if l.contains roomId then l else l ++ [roomId]

/-- The `join-room` handler.  Guard `if (!roomId) return`, store the
display name, fetch the room (reporting `join-error` on throw or
not-found), then either the owner fast path or the lobby path. -/
def joinRoom (dir : Dir) (st : ServerState) (sid roomId : String)
    (displayName : Option String) : ServerState × List Emit :=
  match findSocket st sid with
  | none => (st, [])
  | some sock0 =>
    if roomId == "" then (st, []) else
    let st1 := updateSocket st sid (fun s => { s with displayName := displayName })
    match dir roomId with
    | .error _ => (st1, [⟨sid, .joinError "Failed to join room"⟩])
    | .ok none => (st1, [⟨sid, .joinError "Room not found"⟩])
    | .ok (some room) =>
      if sock0.userId == room.created_by then
        let st2 := updateSocket st1 sid (fun s =>
          { s with joinedRooms := joinRoomList s.joinedRooms roomId, roomId := some roomId })
        (st2,
          socketToRoom st2 roomId sid (.userJoined sock0.userId sid displayName)
          ++ [⟨sid, .roomJoined roomId true⟩]
          ++ (if (getPendingForRoom st2.lobby roomId).length > 0 then
                [⟨sid, .pendingRequests (getPendingForRoom st2.lobby roomId)⟩]
              else []))
      else
        let st2 := { st1 with lobby := addToLobby st1.lobby roomId sid sock0.userId displayName }
        let ownerEmit :=
          match st2.sockets.find? (fun s =>
              s.joinedRooms.contains roomId && s.userId == room.created_by) with
          | some o => [⟨o.id, .pendingJoinRequest sid sock0.userId displayName⟩]
          | none => []
        (st2, ownerEmit ++ [⟨sid, .waitingForHost⟩])

/-- The `accept-join` handler: ownership re-check, lobby lookup, target
liveness check (cleaning a stale entry), then the admission itself. -/
def acceptJoin (dir : Dir) (st : ServerState) (sid targetSid : String) :
    ServerState × List Emit :=
  match findSocket st sid with
  | none => (st, [])
  | some sock =>
    match sock.roomId with
    | none => (st, [])
    | some roomId =>
      match dir roomId with
      | .error _ => (st, [])
      | .ok none => (st, [])
      | .ok (some room) =>
        if room.created_by != sock.userId then (st, []) else
        match (lobbyGet st.lobby roomId).bind
            (fun list => list.find? (fun p => p.socketId == targetSid)) with
        | none => (st, [])
        | some pending =>
          match findSocket st targetSid with
          | none => ({ st with lobby := removeFromLobby st.lobby roomId targetSid }, [])
          | some _ =>
            let st1 := { st with lobby := removeFromLobby st.lobby roomId targetSid }
            let st2 := updateSocket st1 targetSid (fun s =>
              { s with displayName := pending.displayName,
                       joinedRooms := joinRoomList s.joinedRooms roomId,
                       roomId := some roomId })
            (st2,
              socketToRoom st2 roomId sid
                (.userJoined pending.userId targetSid pending.displayName)
              ++ [⟨targetSid, .roomJoined roomId false⟩])

/-- The `reject-join` handler: ownership re-check, lobby removal, then the
unconditional `join-rejected` to the named socket id. -/
def rejectJoin (dir : Dir) (st : ServerState) (sid targetSid : String) :
    ServerState × List Emit :=
  match findSocket st sid with
  | none => (st, [])
  | some sock =>
    match sock.roomId with
    | none => (st, [])
    | some roomId =>
      match dir roomId with
      | .error _ => (st, [])
      | .ok none => (st, [])
      | .ok (some room) =>
        if room.created_by != sock.userId then (st, []) else
        ({ st with lobby := removeFromLobby st.lobby roomId targetSid },
          ioTo st targetSid .joinRejected)

/-- The `kick-user` handler: ownership re-check, target membership check,
then leave + notifications. -/
def kickUser (dir : Dir) (st : ServerState) (sid targetSid : String) :
    ServerState × List Emit :=
  match findSocket st sid with
  | none => (st, [])
  | some sock =>
    match sock.roomId with
    | none => (st, [])
    | some roomId =>
      match dir roomId with
      | .error _ => (st, [])
      | .ok none => (st, [])
      | .ok (some room) =>
        if room.created_by != sock.userId then (st, []) else
        match findSocket st targetSid with
        | none => (st, [])
        | some target =>
          if target.roomId == some roomId then
            let st1 := updateSocket st targetSid (fun s =>
              { s with joinedRooms := s.joinedRooms.erase roomId, roomId := none })
            (st1,
              [⟨targetSid, .youWereKicked⟩]
              ++ socketToRoom st1 roomId sid
                  (.userLeft target.userId targetSid target.displayName))
          else (st, [])

/-- The `disconnect` handler: `removeFromLobby(socket.roomId, socket.id)`
(a no-op when `socket.roomId` is unset), then `user-left` to the room the
socket had joined, then the socket itself goes away. -/
def disconnect (st : ServerState) (sid : String) : ServerState × List Emit :=
  match findSocket st sid with
  | none => (st, [])
  | some sock =>
    let lobby1 :=
      match sock.roomId with
      | some r => removeFromLobby st.lobby r sid
      | none => st.lobby
    let emits :=
      match sock.roomId with
      | some r => socketToRoom st r sid (.userLeft sock.userId sid sock.displayName)
      | none => []
    ({ sockets := st.sockets.filter (fun s => s.id != sid), lobby := lobby1 }, emits)

/-- The `get-pending-requests` handler (callback value). -/
def getPendingRequests (st : ServerState) (sid : String) : List PendingEntry :=
  match findSocket st sid with
  | none => []
  | some sock =>
    match sock.roomId with
    | none => []
    | some roomId => getPendingForRoom st.lobby roomId

/-- The `offer` handler: `if (to) io.to(to).emit('offer', {from, sdp})`. -/
def relayOffer (st : ServerState) (sid toId sdp : String) : List Emit :=
  if toId == "" then [] else ioTo st toId (.offer sid sdp)

/-- The `answer` handler. -/
def relayAnswer (st : ServerState) (sid toId sdp : String) : List Emit :=
  if toId == "" then [] else ioTo st toId (.answer sid sdp)

/-- The `ice-candidate` handler. -/
def relayIceCandidate (st : ServerState) (sid toId candidate : String) : List Emit :=
  if toId == "" then [] else ioTo st toId (.iceCandidate sid candidate)

/-- Room membership: the live group of sockets that joined `roomId`. -/
def roomMembers (st : ServerState) (roomId : String) : List Socket :=
  st.sockets.filter (fun s => s.joinedRooms.contains roomId)

/-- Whether the connection `sid` is a member of `roomId`. -/
def isMember (st : ServerState) (roomId sid : String) : Bool :=
  st.sockets.any (fun s => s.id == sid && s.joinedRooms.contains roomId)

/-- Whether a socket with this id is currently connected. -/
def isConnected (st : ServerState) (sid : String) : Bool :=
  st.sockets.any (fun s => s.id == sid)

/-- The inbound events the claims quantify over. -/
inductive Event where
  | joinRoom (sid roomId : String) (displayName : Option String)
  | acceptJoin (sid targetSid : String)
  | rejectJoin (sid targetSid : String)
  | kickUser (sid targetSid : String)
  | disconnect (sid : String)
deriving DecidableEq, Repr

/-- Dispatch one inbound event to its handler. -/
def applyEvent (dir : Dir) (st : ServerState) : Event → ServerState × List Emit
  | .joinRoom sid roomId dn => joinRoom dir st sid roomId dn
  | .acceptJoin sid t => acceptJoin dir st sid t
  | .rejectJoin sid t => rejectJoin dir st sid t
  | .kickUser sid t => kickUser dir st sid t
  | .disconnect sid => disconnect st sid

/-- Run a sequence of events, keeping only the state. -/
def runEvents (dir : Dir) (st : ServerState) (evs : List Event) : ServerState :=
  evs.foldl (fun s e => (applyEvent dir s e).1) st

/-- A fresh server: the given `(socketId, userId)` connections, each
authenticated-idle (no room, no display name), and an empty lobby. -/
def initState (conns : List (String × String)) : ServerState :=
  { sockets := conns.map (fun c =>
      { id := c.1, userId := c.2, displayName := none, roomId := none, joinedRooms := [] }),
    lobby := [] }

/-- The two mutating Lobby Store operations, for the algebraic claims. -/
inductive LobbyOp where
  | add (roomId socketId userId : String) (displayName : Option String)
  | remove (roomId socketId : String)
deriving DecidableEq, Repr

/-- Apply one Lobby Store operation. -/
def applyLobbyOp (L : Lobby) : LobbyOp → Lobby
  | .add r s u d => addToLobby L r s u d
  | .remove r s => removeFromLobby L r s

/-- Run a sequence of Lobby Store operations from the empty store. -/
def runLobbyOps (ops : List LobbyOp) : Lobby := ops.foldl applyLobbyOp []

/-- The lobby never stores an empty pending list. -/
def lobbyNoEmpty (L : Lobby) : Prop := ∀ p ∈ L, p.2 ≠ []

/-- Every socket in the list has joined at most one room. -/
def socketsSingle (l : List Socket) : Prop := ∀ s ∈ l, s.joinedRooms.length ≤ 1

/-- An event is admission-fresh when the connection it could admit
(the caller of `join-room`, the target of `accept-join`) is not currently
in any room's membership. -/
def admitsFresh (st : ServerState) : Event → Bool
  | .joinRoom sid _ _ => st.sockets.all (fun s => s.id != sid || s.joinedRooms.isEmpty)
  | .acceptJoin _ t => st.sockets.all (fun s => s.id != t || s.joinedRooms.isEmpty)
  | _ => true

/-- States reachable from a fresh server by join-room, accept-join,
reject-join, kick-user and disconnect events whose admissions all target
connections not already in a room. -/
inductive ReachableFresh (dir : Dir) : ServerState → Prop where
  | init (conns : List (String × String)) : ReachableFresh dir (initState conns)
  | step {st : ServerState} (e : Event) (h : ReachableFresh dir st)
      (hf : admitsFresh st e = true) : ReachableFresh dir (applyEvent dir st e).1

/-- A directory with a single room `R` owned by identity `u1`. -/
def dir1 : Dir := fun r => if r == "R" then .ok (some ⟨"u1"⟩) else .ok none

/-- A directory with room `A` owned by `u1` and room `B` owned by `u2`. -/
def dir2 : Dir := fun r =>
  if r == "A" then .ok (some ⟨"u1"⟩)
  else if r == "B" then .ok (some ⟨"u2"⟩)
  else .ok none

/-- Concrete run: owner `o` joins `R`, `p` goes pending for `R`, then `p`
disconnects while still pending. -/
def stC1 : ServerState :=
  runEvents dir1 (initState [("o", "u1"), ("p", "u2")])
    [.joinRoom "o" "R" (some "Owner"), .joinRoom "p" "R" (some "Pat"), .disconnect "p"]

/-- Concrete run: `s1` (owner of `A`) joins `A`, `s2` (owner of `B`) joins
`B`, `s1` requests `B` and `s2` accepts it. -/
def stC2 : ServerState :=
  runEvents dir2 (initState [("s1", "u1"), ("s2", "u2")])
    [.joinRoom "s1" "A" none, .joinRoom "s2" "B" none, .joinRoom "s1" "B" none,
     .acceptJoin "s2" "s1"]

/-- Concrete state: owner `o` is the sole member of `R` and `t` is pending
for `R`; both connections are live. -/
def stC3 : ServerState :=
  runEvents dir1 (initState [("o", "u1"), ("t", "u2")])
    [.joinRoom "o" "R" none, .joinRoom "t" "R" none]

/-- Concrete state: owner `o` and admitted member `m` are in room `R`,
`t` is pending for `R`; used to exercise `reject-join` against a target
that is a joined member rather than a pending request. -/
def stC10 : ServerState :=
  runEvents dir1 (initState [("o", "u1"), ("m", "u3"), ("t", "u2")])
    [.joinRoom "o" "R" none, .joinRoom "m" "R" none, .acceptJoin "o" "m",
     .joinRoom "t" "R" none]

theorem lobbyGet_lobbySet_self (L : Lobby) (r : String) (l : List PendingEntry) :
    lobbyGet (lobbySet L r l) r = some l := by
  induction L with
  | nil => simp [lobbySet, lobbyGet]
  | cons p rest ih =>
    cases h : p.1 == r <;> simp [lobbySet, lobbyGet, h, ih]

theorem mem_lobbySet {L : Lobby} {r : String} {l : List PendingEntry} {q : String × List PendingEntry}
    (hq : q ∈ lobbySet L r l) : q = (r, l) ∨ q ∈ L := by
  induction L with
  | nil => simp [lobbySet] at hq; simp [hq]
  | cons p rest ih =>
    cases h : p.1 == r
    · simp only [lobbySet, h] at hq
      rcases List.mem_cons.mp hq with h1 | h1
      · simp [h1]
      · rcases ih h1 with h2 | h2
        · exact Or.inl h2
        · exact Or.inr (List.mem_cons_of_mem p h2)
    · simp only [lobbySet, h] at hq
      rcases List.mem_cons.mp hq with h1 | h1
      · exact Or.inl h1
      · exact Or.inr (List.mem_cons_of_mem p h1)

theorem mem_lobbyDelete {L : Lobby} {r : String} {q : String × List PendingEntry}
    (hq : q ∈ lobbyDelete L r) : q ∈ L := by
  induction L with
  | nil => simp [lobbyDelete] at hq
  | cons p rest ih =>
    cases h : p.1 == r
    · simp only [lobbyDelete, h] at hq
      rcases List.mem_cons.mp hq with h1 | h1
      · simp [h1]
      · exact List.mem_cons_of_mem p (ih h1)
    · simp only [lobbyDelete, h] at hq
      exact List.mem_cons_of_mem p (ih hq)

theorem lobbyGet_lobbyDelete_self (L : Lobby) (r : String) :
    lobbyGet (lobbyDelete L r) r = none := by
  induction L with
  | nil => simp [lobbyDelete, lobbyGet]
  | cons p rest ih =>
    cases h : p.1 == r <;> simp [lobbyDelete, lobbyGet, h, ih]

theorem lobbySet_self {L : Lobby} {r : String} {l : List PendingEntry}
    (h : lobbyGet L r = some l) : lobbySet L r l = L := by
  induction L with
  | nil => simp [lobbyGet] at h
  | cons p rest ih =>
    cases hp : p.1 == r
    · simp only [lobbyGet, hp] at h
      simp [lobbySet, hp, ih h]
    · have hr : p.1 = r := by simpa using hp
      simp [lobbyGet, hp] at h
      obtain ⟨a, b⟩ := p
      simp only at hr h
      subst hr
      subst h
      simp [lobbySet]

theorem lobbyGet_mem {L : Lobby} {r : String} {l : List PendingEntry}
    (h : lobbyGet L r = some l) : (r, l) ∈ L := by
  induction L with
  | nil => simp [lobbyGet] at h
  | cons p rest ih =>
    cases hp : p.1 == r
    · simp only [lobbyGet, hp] at h
      exact List.mem_cons_of_mem p (ih h)
    · simp only [lobbyGet, hp, Option.some.injEq] at h
      have hr : p.1 = r := by simpa using hp
      have : p = (r, l) := by cases p; simp_all
      simp [← this]

theorem spliceOut_not_mem {l : List PendingEntry} {s : String}
    (hn : (l.map PendingEntry.socketId).Nodup) :
    ∀ e ∈ spliceOut l s, e.socketId ≠ s := by
  induction l with
  | nil => simp [spliceOut]
  | cons p rest ih =>
    simp only [List.map_cons, List.nodup_cons] at hn
    intro e he
    cases hp : p.socketId == s
    · simp only [spliceOut, hp] at he
      rcases List.mem_cons.mp he with h1 | h1
      · subst h1; simpa using hp
      · exact ih hn.2 e h1
    · simp only [spliceOut, hp] at he
      have hps : p.socketId = s := by simpa using hp
      intro hes
      exact hn.1 (hps ▸ hes ▸ List.mem_map_of_mem PendingEntry.socketId he)

theorem spliceOut_id {l : List PendingEntry} {s : String}
    (h : ∀ e ∈ l, e.socketId ≠ s) : spliceOut l s = l := by
  induction l with
  | nil => simp [spliceOut]
  | cons p rest ih =>
    have hp : (p.socketId == s) = false := by
      simpa using h p (List.mem_cons_self p rest)
    simp only [spliceOut, hp, Bool.false_eq_true, if_false]
    rw [ih (fun e he => h e (List.mem_cons_of_mem p he))]

theorem getPendingForRoom_removeFromLobby {L : Lobby} {r s : String}
    (hn : ((getPendingForRoom L r).map PendingEntry.socketId).Nodup) :
    ∀ e ∈ getPendingForRoom (removeFromLobby L r s) r, e.socketId ≠ s := by
  unfold removeFromLobby
  cases hg : lobbyGet L r with
  | none => simp [getPendingForRoom, hg]
  | some list =>
    simp only [getPendingForRoom, hg, Option.getD_some] at hn
    intro e he
    by_cases hlen : ((spliceOut list s).length == 0) = true
    · simp only [hlen, if_true, getPendingForRoom, lobbyGet_lobbyDelete_self,
        Option.getD_none] at he
      exact absurd he (List.not_mem_nil e)
    · simp only [hlen, if_false, Bool.false_eq_true, getPendingForRoom,
        lobbyGet_lobbySet_self, Option.getD_some] at he
      exact spliceOut_not_mem hn e he

theorem lobbyNoEmpty_add {L : Lobby} (h : lobbyNoEmpty L) (r s u : String) (d : Option String) :
    lobbyNoEmpty (addToLobby L r s u d) := by
  unfold addToLobby
  cases hg : lobbyGet L r with
  | none =>
    intro p hp
    rcases mem_lobbySet hp with h1 | h1
    · simp [h1]
    · exact h p h1
  | some list =>
    cases hdup : list.any (fun p => p.socketId == s)
    · simp only [hdup, Bool.false_eq_true, if_false]
      intro p hp
      rcases mem_lobbySet hp with h1 | h1
      · simp [h1]
      · exact h p h1
    · simpa [hdup] using h

theorem lobbyNoEmpty_remove {L : Lobby} (h : lobbyNoEmpty L) (r s : String) :
    lobbyNoEmpty (removeFromLobby L r s) := by
  unfold removeFromLobby
  cases hg : lobbyGet L r with
  | none => exact h
  | some list =>
    cases hlen : ((spliceOut list s).length == 0)
    · simp only [hlen, Bool.false_eq_true, if_false]
      intro p hp
      rcases mem_lobbySet hp with h1 | h1
      · have : (spliceOut list s).length ≠ 0 := by simpa using hlen
        simp [h1, ← List.length_pos, Nat.pos_of_ne_zero this]
      · exact h p h1
    · simp only [hlen, if_true]
      exact fun p hp => h p (mem_lobbyDelete hp)

theorem lobbyNoEmpty_runLobbyOps (ops : List LobbyOp) : lobbyNoEmpty (runLobbyOps ops) := by
  have main : ∀ L : Lobby, lobbyNoEmpty L → lobbyNoEmpty (ops.foldl applyLobbyOp L) := by
    induction ops with
    | nil => exact fun L hL => hL
    | cons op rest ih =>
      intro L hL
      refine ih _ ?_
      cases op with
      | add r s u d => exact lobbyNoEmpty_add hL r s u d
      | remove r s => exact lobbyNoEmpty_remove hL r s
  exact main [] (by intro p hp; simp at hp)

theorem removeFromLobby_eq_self {L : Lobby} {r s : String}
    (h1 : ∀ e ∈ getPendingForRoom L r, e.socketId ≠ s)
    (h2 : ∀ l, lobbyGet L r = some l → l ≠ []) :
    removeFromLobby L r s = L := by
  unfold removeFromLobby
  cases hg : lobbyGet L r with
  | none => rfl
  | some list =>
    simp only [getPendingForRoom, hg, Option.getD_some] at h1
    have hne : list ≠ [] := h2 list hg
    have hlen : (list.length == 0) = false := by
      simp [List.length_eq_zero, hne]
    simp only [spliceOut_id h1, hlen, Bool.false_eq_true, if_false]
    exact lobbySet_self hg

/-- Claim C7: calling the Lobby Store add operation twice with the same
room and connection identifier (starting from a room with no pending
list) yields a pending list containing exactly that one entry — length 1,
not 2 — whatever identity and display name the second call carries. -/
theorem claim_C7_lobby_add_idempotent (L : Lobby) (r s u u2 : String) (d d2 : Option String)
    (h : getPendingForRoom L r = []) :
    getPendingForRoom (addToLobby (addToLobby L r s u d) r s u2 d2) r = [⟨s, u, d⟩] := by
  have he : ∀ L2 : Lobby, lobbyGet L2 r = some [(⟨s, u, d⟩ : PendingEntry)] →
      addToLobby L2 r s u2 d2 = L2 := by
    intro L2 hg2
    unfold addToLobby
    simp [hg2]
  have h1 : addToLobby L r s u d = lobbySet L r [⟨s, u, d⟩] := by
    cases hg : lobbyGet L r with
    | none => unfold addToLobby; simp [hg]
    | some list =>
      have hl : list = [] := by simpa [getPendingForRoom, hg] using h
      subst hl
      unfold addToLobby
      simp [hg]
  rw [h1, he _ (lobbyGet_lobbySet_self L r _)]
  simp [getPendingForRoom, lobbyGet_lobbySet_self]

/-- Witness for claim C7 at a concrete store. -/
theorem claim_C7_lobby_add_idempotent_witness :
    getPendingForRoom
      (addToLobby (addToLobby ([] : Lobby) "r" "s" "u" (some "n")) "r" "s" "u2" none) "r"
    = [⟨"s", "u", some "n"⟩] :=
  claim_C7_lobby_add_idempotent [] "r" "s" "u" "u2" (some "n") none (by decide)

/-- Claim C8: after any sequence of add and remove operations the Lobby
Store never maps a room to an empty list; and removing the last pending
entry of a room deletes the room's entry entirely, so `listPending`
returns `[]` and no residual entry remains. -/
theorem claim_C8_no_empty_pending_lists :
    (∀ ops : List LobbyOp, ∀ r : String, ∀ l : List PendingEntry,
        lobbyGet (runLobbyOps ops) r = some l → l ≠ []) ∧
    (∀ L : Lobby, ∀ r s u : String, ∀ d : Option String,
        lobbyGet L r = some [⟨s, u, d⟩] →
        lobbyGet (removeFromLobby L r s) r = none ∧
        getPendingForRoom (removeFromLobby L r s) r = []) := by
  constructor
  · intro ops r l hget
    exact lobbyNoEmpty_runLobbyOps ops (r, l) (lobbyGet_mem hget)
  · intro L r s u d hget
    unfold removeFromLobby
    simp [hget, spliceOut, lobbyGet_lobbyDelete_self, getPendingForRoom]

/-- Witness for claim C8 at a concrete store. -/
theorem claim_C8_no_empty_pending_lists_witness :
    (([(⟨"s", "u", none⟩ : PendingEntry)] : List PendingEntry) ≠ []) ∧
    lobbyGet (removeFromLobby [("r", [⟨"s", "u", none⟩])] "r" "s") "r" = none ∧
    getPendingForRoom (removeFromLobby [("r", [⟨"s", "u", none⟩])] "r" "s") "r" = [] :=
  ⟨claim_C8_no_empty_pending_lists.1 [.add "r" "s" "u" none] "r" _ (by decide),
   claim_C8_no_empty_pending_lists.2 [("r", [⟨"s", "u", none⟩])] "r" "s" "u" none (by decide)⟩

theorem socketsSingle_updateSocket {st : ServerState} {sid : String} {f : Socket → Socket}
    (h : socketsSingle st.sockets)
    (hf : ∀ s ∈ st.sockets, s.id = sid → (f s).joinedRooms.length ≤ 1) :
    socketsSingle (updateSocket st sid f).sockets := by
  intro s2 hs2
  simp only [updateSocket, List.mem_map] at hs2
  obtain ⟨s, hs, rfl⟩ := hs2
  cases hid : s.id == sid
  · simp only [hid, Bool.false_eq_true, if_false]
    exact h s hs
  · simp only [hid, if_true]
    exact hf s hs (by simpa using hid)

theorem socketsSingle_update_keep {st : ServerState} {sid : String} {f : Socket → Socket}
    (h : socketsSingle st.sockets)
    (hk : ∀ s, (f s).joinedRooms = s.joinedRooms) :
    socketsSingle (updateSocket st sid f).sockets :=
  socketsSingle_updateSocket h (fun s hs _ => by rw [hk]; exact h s hs)

theorem fresh_updateSocket {st : ServerState} {sid x : String} {f : Socket → Socket}
    (hk : ∀ s, (f s).joinedRooms = s.joinedRooms) (hki : ∀ s, (f s).id = s.id)
    (hfresh : ∀ s ∈ st.sockets, s.id = x → s.joinedRooms = []) :
    ∀ s ∈ (updateSocket st sid f).sockets, s.id = x → s.joinedRooms = [] := by
  intro s2 hs2 hx
  simp only [updateSocket, List.mem_map] at hs2
  obtain ⟨s, hs, rfl⟩ := hs2
  cases hid : s.id == sid
  · simp only [hid, Bool.false_eq_true, if_false] at hx ⊢
    exact hfresh s hs hx
  · simp only [hid, if_true] at hx ⊢
    rw [hki] at hx
    rw [hk]
    exact hfresh s hs hx

theorem joinRoomList_nil (r : String) : joinRoomList [] r = [r] := by
  simp [joinRoomList]

theorem admitsFresh_joinRoom {st : ServerState} {sid rid : String} {dn : Option String}
    (hf : admitsFresh st (.joinRoom sid rid dn) = true) :
    ∀ s ∈ st.sockets, s.id = sid → s.joinedRooms = [] := by
  intro s hs hid
  simp only [admitsFresh, List.all_eq_true] at hf
  have h2 := hf s hs
  simp only [hid, bne_self_eq_false, Bool.false_or] at h2
  exact List.isEmpty_iff.mp h2

theorem admitsFresh_acceptJoin {st : ServerState} {sid t : String}
    (hf : admitsFresh st (.acceptJoin sid t) = true) :
    ∀ s ∈ st.sockets, s.id = t → s.joinedRooms = [] := by
  intro s hs hid
  simp only [admitsFresh, List.all_eq_true] at hf
  have h2 := hf s hs
  simp only [hid, bne_self_eq_false, Bool.false_or] at h2
  exact List.isEmpty_iff.mp h2

theorem rejectJoin_sockets (dir : Dir) (st : ServerState) (sid t : String) :
    (rejectJoin dir st sid t).1.sockets = st.sockets := by
  unfold rejectJoin
  repeat' split
  all_goals rfl

theorem socketsSingle_joinRoom (dir : Dir) (st : ServerState) (sid rid : String)
    (dn : Option String) (h : socketsSingle st.sockets)
    (hfresh : ∀ s ∈ st.sockets, s.id = sid → s.joinedRooms = []) :
    socketsSingle (joinRoom dir st sid rid dn).1.sockets := by
  have hsingle1 : socketsSingle (updateSocket st sid
      (fun s => { s with displayName := dn })).sockets :=
    socketsSingle_update_keep h (fun s => rfl)
  have hfresh1 : ∀ s ∈ (updateSocket st sid
      (fun s => { s with displayName := dn })).sockets, s.id = sid → s.joinedRooms = [] :=
    fresh_updateSocket (fun s => rfl) (fun s => rfl) hfresh
  unfold joinRoom
  repeat' split
  all_goals try exact h
  all_goals try exact hsingle1
  refine socketsSingle_updateSocket hsingle1 (fun s hs hid => ?_)
  simp only [hfresh1 s hs hid, joinRoomList_nil]
  exact le_refl 1

theorem socketsSingle_acceptJoin (dir : Dir) (st : ServerState) (sid t : String)
    (h : socketsSingle st.sockets)
    (hfresh : ∀ s ∈ st.sockets, s.id = t → s.joinedRooms = []) :
    socketsSingle (acceptJoin dir st sid t).1.sockets := by
  unfold acceptJoin
  repeat' split
  all_goals try exact h
  refine socketsSingle_updateSocket h (fun s hs hid => ?_)
  simp only [hfresh s hs hid, joinRoomList_nil]
  exact le_refl 1

theorem socketsSingle_kickUser (dir : Dir) (st : ServerState) (sid t : String)
    (h : socketsSingle st.sockets) :
    socketsSingle (kickUser dir st sid t).1.sockets := by
  unfold kickUser
  repeat' split
  all_goals try exact h
  refine socketsSingle_updateSocket h (fun s hs _ => ?_)
  exact le_trans (List.Sublist.length_le (List.erase_sublist _ _)) (h s hs)

theorem socketsSingle_disconnect (st : ServerState) (sid : String)
    (h : socketsSingle st.sockets) :
    socketsSingle (disconnect st sid).1.sockets := by
  unfold disconnect
  repeat' split
  all_goals try exact h
  all_goals (intro s hs; exact h s (List.mem_filter.mp hs).1)

theorem socketsSingle_reachable {dir : Dir} {st : ServerState}
    (h : ReachableFresh dir st) : socketsSingle st.sockets := by
  induction h with
  | init conns =>
    intro s hs
    simp only [initState, List.mem_map] at hs
    obtain ⟨c, _, rfl⟩ := hs
    simp
  | step e hst hf ih =>
    cases e with
    | joinRoom sid rid dn =>
      exact socketsSingle_joinRoom dir _ sid rid dn ih (admitsFresh_joinRoom hf)
    | acceptJoin sid t =>
      exact socketsSingle_acceptJoin dir _ sid t ih (admitsFresh_acceptJoin hf)
    | rejectJoin sid t =>
      intro s hs
      rw [applyEvent, rejectJoin_sockets] at hs
      exact ih s hs
    | kickUser sid t => exact socketsSingle_kickUser dir _ sid t ih
    | disconnect sid => exact socketsSingle_disconnect _ sid ih

theorem filter_personal_room (l : List Socket) (x : String)
    (hnc : ∀ s ∈ l, x ∉ s.joinedRooms) :
    l.filter (fun s => s.id == x || s.joinedRooms.contains x)
      = l.filter (fun s => s.id == x) := by
  apply List.filter_congr
  intro s hs
  have hcon : s.joinedRooms.contains x = false := by
    rw [← Bool.not_eq_true]
    intro hc
    exact hnc s hs (List.elem_iff.mp hc)
  rw [hcon, Bool.or_false]

theorem filter_id_single {l : List Socket} {x : String} {s0 : Socket}
    (hnd : (l.map Socket.id).Nodup) (hs0 : s0 ∈ l) (hid : s0.id = x) :
    l.filter (fun s => s.id == x) = [s0] := by
  induction l with
  | nil => cases hs0
  | cons a rest ih =>
    simp only [List.map_cons, List.nodup_cons] at hnd
    rcases List.mem_cons.mp hs0 with h1 | h1
    · subst h1
      have hrest : rest.filter (fun s => s.id == x) = [] := by
        rw [List.filter_eq_nil_iff]
        intro s hs hc
        have hsx : s.id = x := by simpa using hc
        exact hnd.1 (hid ▸ hsx ▸ List.mem_map_of_mem Socket.id hs)
      simp [hid, hrest]
    · have ha : (a.id == x) = false := by
        rw [beq_eq_false_iff_ne]
        intro hax
        exact hnd.1 (hax ▸ hid ▸ List.mem_map_of_mem Socket.id h1)
      simp [ha, ih hnd.2 h1]

theorem ioTo_connected {st : ServerState} {x : String} (e : Ev)
    (hnd : (st.sockets.map Socket.id).Nodup)
    (hnc : ∀ s ∈ st.sockets, x ∉ s.joinedRooms)
    (hc : isConnected st x = true) :
    ioTo st x e = [⟨x, e⟩] := by
  obtain ⟨s0, hs0, hid⟩ : ∃ s0, s0 ∈ st.sockets ∧ s0.id = x := by
    simpa [isConnected] using hc
  unfold ioTo
  rw [filter_personal_room _ _ hnc, filter_id_single hnd hs0 hid]
  simp [hid]

theorem ioTo_disconnected {st : ServerState} {x : String} (e : Ev)
    (hnc : ∀ s ∈ st.sockets, x ∉ s.joinedRooms)
    (hc : isConnected st x = false) :
    ioTo st x e = [] := by
  have hno : ∀ s ∈ st.sockets, s.id ≠ x := by
    intro s hs hsx
    rw [isConnected, ← Bool.not_eq_true, List.any_eq_true] at hc
    exact hc ⟨s, hs, by simp [hsx]⟩
  unfold ioTo
  rw [filter_personal_room _ _ hnc]
  have : st.sockets.filter (fun s => s.id == x) = [] := by
    rw [List.filter_eq_nil_iff]
    intro s hs hc2
    exact hno s hs (by simpa using hc2)
  simp [this]

/-- Claim C2 (counterexample): connection `s1` is a member of room `A`
and, after being accepted into room `B` while still in `A`, also a member
of room `B` — two distinct rooms at once, in a state reachable by
join-room and accept-join events alone. -/
theorem claim_C2_counterexample :
    isMember stC2 "A" "s1" = true ∧ isMember stC2 "B" "s1" = true ∧ ("A" : String) ≠ "B" := by
  decide

/-- Claim C2 (amended): in every reachable state in which each admission
(join-room call, accept-join target) concerned a connection not already
in some room's membership, every connection belongs to at most one room's
membership. -/
theorem claim_C2_single_room_membership (dir : Dir) (st : ServerState)
    (h : ReachableFresh dir st) (s : Socket) (hs : s ∈ st.sockets)
    (r1 r2 : String) (h1 : r1 ∈ s.joinedRooms) (h2 : r2 ∈ s.joinedRooms) : r1 = r2 := by
  have hlen := socketsSingle_reachable h s hs
  cases hjr : s.joinedRooms with
  | nil =>
    rw [hjr] at h1
    cases h1
  | cons a rest =>
    cases rest with
    | nil =>
      rw [hjr] at h1 h2
      simp only [List.mem_singleton] at h1 h2
      rw [h1, h2]
    | cons b m =>
      rw [hjr] at hlen
      simp at hlen

/-- Witness for amended claim C2 at a concrete one-step reachable state. -/
theorem claim_C2_single_room_membership_witness : ("R" : String) = "R" :=
  claim_C2_single_room_membership dir1
    (applyEvent dir1 (initState [("a", "u1")]) (.joinRoom "a" "R" none)).1
    (ReachableFresh.step (.joinRoom "a" "R" none) (ReachableFresh.init [("a", "u1")])
      (by decide))
    ⟨"a", "u1", none, some "R", ["R"]⟩ (by decide) "R" "R" (by decide) (by decide)

/-- Claim C1 (code bug): connection `p` goes pending for room `R` and then
disconnects, yet its lobby entry survives, and the owner's subsequent
`get-pending-requests` still returns it.  The pending socket never has
`roomId` set, so the disconnect handler's
`removeFromLobby(socket.roomId, socket.id)` looks up the wrong key and
removes nothing — contrary to the spec and to the handler's own comment. -/
theorem claim_C1_disconnect_leaves_pending_entry :
    isConnected stC1 "p" = false ∧
    getPendingRequests stC1 "o" = [⟨"p", "u2", some "Pat"⟩] := by decide

/-- Claim C6: an `offer` (likewise `answer`, `ice-candidate`) with target
`x` is delivered to `x` alone, unchanged and stamped with the sender's
id, exactly when `x` is a currently connected socket; when `x` is gone
nothing is delivered to anyone.  (Socket ids are nonempty and never
collide with joined room names.) -/
theorem claim_C6_relay_iff_connected (st : ServerState) (y x sdp cand : String)
    (hx : x ≠ "")
    (hnd : (st.sockets.map Socket.id).Nodup)
    (hnc : ∀ s ∈ st.sockets, x ∉ s.joinedRooms) :
    (isConnected st x = true →
      relayOffer st y x sdp = [⟨x, .offer y sdp⟩] ∧
      relayAnswer st y x sdp = [⟨x, .answer y sdp⟩] ∧
      relayIceCandidate st y x cand = [⟨x, .iceCandidate y cand⟩]) ∧
    (isConnected st x = false →
      relayOffer st y x sdp = [] ∧
      relayAnswer st y x sdp = [] ∧
      relayIceCandidate st y x cand = []) := by
  have hxb : (x == "") = false := by simpa using hx
  constructor
  · intro hc
    refine ⟨?_, ?_, ?_⟩ <;>
      simp [relayOffer, relayAnswer, relayIceCandidate, hxb, ioTo_connected _ hnd hnc hc]
  · intro hc
    refine ⟨?_, ?_, ?_⟩ <;>
      simp [relayOffer, relayAnswer, relayIceCandidate, hxb, ioTo_disconnected _ hnc hc]

/-- Witness for claim C6 on a concrete two-socket state. -/
theorem claim_C6_relay_iff_connected_witness :
    relayOffer (initState [("a", "u1"), ("b", "u2")]) "a" "b" "sdp"
      = [⟨"b", .offer "a" "sdp"⟩] :=
  ((claim_C6_relay_iff_connected (initState [("a", "u1"), ("b", "u2")]) "a" "b" "sdp" "c"
      (by decide) (by decide) (by decide)).1 (by decide)).1

/-- Claim C10: when the caller is the room owner, `reject-join` emits
`join-rejected` to the named target unconditionally — here a target with
no pending entry for the room (for example an already joined member):
the target still receives `join-rejected`, and the lobby, membership,
and the whole server state are unchanged. -/
theorem claim_C10_reject_join_unconditional (dir : Dir) (st : ServerState)
    (sid x rid : String) (sock : Socket) (room : Room)
    (h0 : findSocket st sid = some sock)
    (h1 : sock.roomId = some rid)
    (h2 : dir rid = .ok (some room))
    (h3 : room.created_by = sock.userId)
    (hnd : (st.sockets.map Socket.id).Nodup)
    (hnc : ∀ s ∈ st.sockets, x ∉ s.joinedRooms)
    (hc : isConnected st x = true)
    (habs : ∀ e ∈ getPendingForRoom st.lobby rid, e.socketId ≠ x)
    (hne : lobbyGet st.lobby rid ≠ some []) :
    rejectJoin dir st sid x = (st, [⟨x, .joinRejected⟩]) := by
  have hne2 : ∀ l, lobbyGet st.lobby rid = some l → l ≠ [] := by
    intro l hl hnil
    exact hne (hnil ▸ hl)
  have hbne : (room.created_by != sock.userId) = false := by
    simp [h3]
  simp only [rejectJoin, h0, h1, h2, hbne, Bool.false_eq_true, if_false,
    removeFromLobby_eq_self habs hne2, ioTo_connected _ hnd hnc hc]

/-- Witness for claim C10: the owner rejects the joined member `m`, which
has no pending entry; `m` still receives `join-rejected` and the state is
untouched. -/
theorem claim_C10_reject_join_unconditional_witness :
    rejectJoin dir1 stC10 "o" "m" = (stC10, [⟨"m", .joinRejected⟩]) :=
  claim_C10_reject_join_unconditional dir1 stC10 "o" "m" "R"
    ⟨"o", "u1", none, some "R", ["R"]⟩ ⟨"u1"⟩
    (by decide) (by decide) (by rfl) (by decide) (by decide) (by decide)
    (by decide) (by decide) (by decide)

theorem updateSocket_skeleton (st : ServerState) (sid : String) (dn : Option String) :
    (updateSocket st sid (fun s => { s with displayName := dn })).sockets.map
      (fun s => (s.id, s.userId, s.roomId, s.joinedRooms))
    = st.sockets.map (fun s => (s.id, s.userId, s.roomId, s.joinedRooms)) := by
  simp only [updateSocket, List.map_map]
  apply List.map_congr_left
  intro s hs
  by_cases hid : s.id = sid <;> simp [hid]

/-- Claim C9: with a well-formed room id, when the directory reports no
room or the lookup throws, `join-room` emits exactly one `join-error` to
the caller and nothing to anyone else, and leaves the lobby, every
socket's room association and the room memberships unchanged. -/
theorem claim_C9_join_error_state_unchanged (dir : Dir) (st : ServerState)
    (sid rid : String) (dn : Option String) (sock : Socket)
    (h0 : findSocket st sid = some sock)
    (hrid : rid ≠ "")
    (herr : dir rid = .ok none ∨ dir rid = .error ()) :
    ((joinRoom dir st sid rid dn).1.lobby = st.lobby) ∧
    ((joinRoom dir st sid rid dn).1.sockets.map
        (fun s => (s.id, s.userId, s.roomId, s.joinedRooms))
      = st.sockets.map (fun s => (s.id, s.userId, s.roomId, s.joinedRooms))) ∧
    (dir rid = .ok none →
      (joinRoom dir st sid rid dn).2 = [⟨sid, .joinError "Room not found"⟩]) ∧
    (dir rid = .error () →
      (joinRoom dir st sid rid dn).2 = [⟨sid, .joinError "Failed to join room"⟩]) := by
  have hridb : (rid == "") = false := by simpa using hrid
  rcases herr with he | he
  · have hred : joinRoom dir st sid rid dn =
        (updateSocket st sid (fun s => { s with displayName := dn }),
         [⟨sid, .joinError "Room not found"⟩]) := by
      simp only [joinRoom, h0, hridb, Bool.false_eq_true, if_false, he]
    refine ⟨by rw [hred]; rfl, by rw [hred]; exact updateSocket_skeleton st sid dn,
      fun _ => by rw [hred], fun hcontra => ?_⟩
    rw [he] at hcontra
    exact absurd hcontra (by simp)
  · have hred : joinRoom dir st sid rid dn =
        (updateSocket st sid (fun s => { s with displayName := dn }),
         [⟨sid, .joinError "Failed to join room"⟩]) := by
      simp only [joinRoom, h0, hridb, Bool.false_eq_true, if_false, he]
    refine ⟨by rw [hred]; rfl, by rw [hred]; exact updateSocket_skeleton st sid dn,
      fun hcontra => ?_, fun _ => by rw [hred]⟩
    rw [he] at hcontra
    exact absurd hcontra (by simp)

/-- Witness for claim C9: joining the nonexistent room `X`. -/
theorem claim_C9_join_error_state_unchanged_witness :
    (joinRoom dir1 (initState [("a", "u1")]) "a" "X" none).2
      = [⟨"a", .joinError "Room not found"⟩] :=
  ((claim_C9_join_error_state_unchanged dir1 (initState [("a", "u1")]) "a" "X" none
      ⟨"a", "u1", none, none, []⟩ (by decide) (by decide) (Or.inl rfl)).2.2.1) rfl

/-- Claim C5: a caller who is in no room, or whose room the directory no
longer reports, or who is not `created_by` of their room per the
directory, gets a silent no-op from `accept-join`, `reject-join` and
`kick-user`: no event is emitted to anyone and the lobby and all
memberships are untouched. -/
theorem claim_C5_non_owner_actions_noop (dir : Dir) (st : ServerState)
    (sid t : String) (sock : Socket)
    (h0 : findSocket st sid = some sock)
    (hno : sock.roomId = none ∨ ∃ rid, sock.roomId = some rid ∧
      (dir rid = .ok none ∨
        ∃ room, dir rid = .ok (some room) ∧ room.created_by ≠ sock.userId)) :
    acceptJoin dir st sid t = (st, []) ∧
    rejectJoin dir st sid t = (st, []) ∧
    kickUser dir st sid t = (st, []) := by
  rcases hno with hr | ⟨rid, hr, hcase⟩
  · refine ⟨?_, ?_, ?_⟩ <;> simp only [acceptJoin, rejectJoin, kickUser, h0, hr]
  · rcases hcase with hd | ⟨room, hd, hne⟩
    · refine ⟨?_, ?_, ?_⟩ <;> simp only [acceptJoin, rejectJoin, kickUser, h0, hr, hd]
    · have hbne : (room.created_by != sock.userId) = true := by simpa using hne
      refine ⟨?_, ?_, ?_⟩ <;>
        simp only [acceptJoin, rejectJoin, kickUser, h0, hr, hd, hbne, if_true]

/-- Witness for claim C5: an idle caller's `accept-join` is a no-op. -/
theorem claim_C5_non_owner_actions_noop_witness :
    acceptJoin dir1 (initState [("a", "u1")]) "a" "x" = (initState [("a", "u1")], []) :=
  (claim_C5_non_owner_actions_noop dir1 (initState [("a", "u1")]) "a" "x"
      ⟨"a", "u1", none, none, []⟩ (by decide) (Or.inl (by decide))).1

theorem mem_joinRoomList (l : List String) (r : String) : r ∈ joinRoomList l r := by
  cases h : l.contains r
  · simp only [joinRoomList, h, Bool.false_eq_true, if_false]
    simp
  · simp only [joinRoomList, h, if_true]
    exact List.elem_iff.mp h

theorem findSocket_mem {st : ServerState} {sid : String} {sock : Socket}
    (h : findSocket st sid = some sock) : sock ∈ st.sockets :=
  List.mem_of_find?_eq_some h

theorem findSocket_id {st : ServerState} {sid : String} {sock : Socket}
    (h : findSocket st sid = some sock) : (sock.id == sid) = true := by
  have h2 := List.find?_some h
  simpa using h2

theorem joinRoomList_contains (l : List String) (r : String) :
    (joinRoomList l r).contains r = true := by
  cases h : l.contains r
  · simp only [joinRoomList, h, Bool.false_eq_true, if_false]
    rw [List.elem_iff]
    simp
  · simp only [joinRoomList, h, if_true]

/-- Claim C4: a connection whose identity equals the room's `created_by`
joins an existing room directly: the lobby is untouched (no lobby entry
is ever created), the caller enters the room's membership, every
pre-existing member of the room receives `user-joined` for the caller,
the caller receives `room-joined{isOwner:true}`, and when the room's
pending list is non-empty it is delivered to the caller. -/
theorem claim_C4_owner_auto_join (dir : Dir) (st : ServerState)
    (sid rid : String) (dn : Option String) (sock : Socket) (room : Room)
    (h0 : findSocket st sid = some sock)
    (hrid : rid ≠ "")
    (hdir : dir rid = .ok (some room))
    (hown : sock.userId = room.created_by) :
    ((joinRoom dir st sid rid dn).1.lobby = st.lobby) ∧
    isMember (joinRoom dir st sid rid dn).1 rid sid = true ∧
    (∀ m ∈ roomMembers st rid, m.id ≠ sid →
      (⟨m.id, .userJoined sock.userId sid dn⟩ : Emit) ∈ (joinRoom dir st sid rid dn).2) ∧
    (⟨sid, .roomJoined rid true⟩ : Emit) ∈ (joinRoom dir st sid rid dn).2 ∧
    (getPendingForRoom st.lobby rid ≠ [] →
      (⟨sid, .pendingRequests (getPendingForRoom st.lobby rid)⟩ : Emit)
        ∈ (joinRoom dir st sid rid dn).2) := by
  have hridb : (rid == "") = false := by simpa using hrid
  have hownb : (sock.userId == room.created_by) = true := by simp [hown]
  have hmem : sock ∈ st.sockets := findSocket_mem h0
  have hsid : (sock.id == sid) = true := findSocket_id h0
  refine ⟨?_, ?_, ?_, ?_, ?_⟩
  · simp only [joinRoom, h0, hridb, Bool.false_eq_true, if_false, hdir, hownb, if_true,
      updateSocket]
  · simp only [joinRoom, h0, hridb, Bool.false_eq_true, if_false, hdir, hownb, if_true,
      updateSocket, isMember, List.map_map, List.any_eq_true]
    refine ⟨_, List.mem_map_of_mem _ hmem, ?_⟩
    simp [Function.comp, hsid, joinRoomList_contains, mem_joinRoomList]
  · simp only [joinRoom, h0, hridb, Bool.false_eq_true, if_false, hdir, hownb, if_true,
      updateSocket, socketToRoom, roomMembers]
    intro m hm hmne
    have hmf := List.mem_filter.mp hm
    have hidb : (m.id == sid) = false := by simpa using hmne
    apply List.mem_append_left
    apply List.mem_append_left
    simp only [List.mem_map, List.map_map]
    refine ⟨m, ?_, rfl⟩
    rw [List.mem_filter]
    constructor
    · exact List.mem_map.mpr ⟨m, hmf.1, by simp [Function.comp, hidb]⟩
    · have hcm : rid ∈ m.joinedRooms := List.elem_iff.mp (by simpa using hmf.2)
      simp [hcm, hmne]
  · simp only [joinRoom, h0, hridb, Bool.false_eq_true, if_false, hdir, hownb, if_true]
    apply List.mem_append_left
    apply List.mem_append_right
    simp
  · intro hpne
    have hpos : 0 < (getPendingForRoom st.lobby rid).length := List.length_pos.mpr hpne
    simp only [joinRoom, h0, hridb, Bool.false_eq_true, if_false, hdir, hownb, if_true,
      updateSocket]
    rw [if_pos hpos]
    apply List.mem_append_right
    simp

/-- Witness for claim C4 at a concrete one-socket server. -/
theorem claim_C4_owner_auto_join_witness :
    isMember (joinRoom dir1 (initState [("a", "u1")]) "a" "R" none).1 "R" "a" = true :=
  (claim_C4_owner_auto_join dir1 (initState [("a", "u1")]) "a" "R" none
      ⟨"a", "u1", none, none, []⟩ ⟨"u1"⟩ (by decide) (by decide) (by rfl) (by decide)).2.1

/-- Claim C3 (counterexample): with owner `o` the sole member of `R` and
`t` pending and live, `accept-join` emits only to `t`: the member `o`
(a member of `R` other than `t`) does not receive `user-joined`, because
`socket.to(roomId)` excludes the sender.  This refutes the claim that
every other member of `R` receives `user-joined` (and the spec's example
in which `U1` receives `user-joined` for `U2`). -/
theorem claim_C3_counterexample :
    isMember stC3 "R" "o" = true ∧ ("o" : String) ≠ "t" ∧
    (acceptJoin dir1 stC3 "o" "t").2
      = [⟨"t", .userJoined "u2" "t" none⟩, ⟨"t", .roomJoined "R" false⟩] := by decide

/-- Claim C3 (amended): when the owner accepts a live pending target, the
target's lobby entry is removed (the pending list for the room no longer
contains it), the target joins the room's membership, every member of the
room other than the accepting owner — the target included — receives
`user-joined` for the target, and the target receives
`room-joined{isOwner:false}`.  The owner itself, as sender of the
broadcast, does not receive `user-joined`. -/
theorem claim_C3_accept_join (dir : Dir) (st : ServerState)
    (oid tid rid : String) (osock : Socket) (room : Room) (pe : PendingEntry) (tsock : Socket)
    (h0 : findSocket st oid = some osock)
    (h1 : osock.roomId = some rid)
    (h2 : dir rid = .ok (some room))
    (h3 : room.created_by = osock.userId)
    (h4 : (lobbyGet st.lobby rid).bind
        (fun list => list.find? (fun p => p.socketId == tid)) = some pe)
    (h5 : findSocket st tid = some tsock)
    (hn : ((getPendingForRoom st.lobby rid).map PendingEntry.socketId).Nodup) :
    (∀ e ∈ getPendingForRoom (acceptJoin dir st oid tid).1.lobby rid, e.socketId ≠ tid) ∧
    isMember (acceptJoin dir st oid tid).1 rid tid = true ∧
    (∀ m ∈ roomMembers (acceptJoin dir st oid tid).1 rid, m.id ≠ oid →
      (⟨m.id, .userJoined pe.userId tid pe.displayName⟩ : Emit)
        ∈ (acceptJoin dir st oid tid).2) ∧
    (⟨tid, .roomJoined rid false⟩ : Emit) ∈ (acceptJoin dir st oid tid).2 := by
  have hbne : (room.created_by != osock.userId) = false := by simp [h3]
  have htmem : tsock ∈ st.sockets := findSocket_mem h5
  have htid : (tsock.id == tid) = true := findSocket_id h5
  refine ⟨?_, ?_, ?_, ?_⟩
  · simp only [acceptJoin, h0, h1, h2, hbne, Bool.false_eq_true, if_false, h4, h5,
      updateSocket]
    exact getPendingForRoom_removeFromLobby hn
  · simp only [acceptJoin, h0, h1, h2, hbne, Bool.false_eq_true, if_false, h4, h5,
      updateSocket, isMember, List.any_eq_true]
    refine ⟨_, List.mem_map_of_mem _ htmem, ?_⟩
    simp [htid, joinRoomList_contains, mem_joinRoomList]
  · simp only [acceptJoin, h0, h1, h2, hbne, Bool.false_eq_true, if_false, h4, h5,
      updateSocket, socketToRoom, roomMembers]
    intro m hm hmne
    have hmf := List.mem_filter.mp hm
    apply List.mem_append_left
    simp only [List.mem_map]
    refine ⟨m, ?_, rfl⟩
    rw [List.mem_filter]
    refine ⟨hmf.1, ?_⟩
    have hcm : rid ∈ m.joinedRooms := List.elem_iff.mp (by simpa using hmf.2)
    simp [hcm, hmne]
  · simp only [acceptJoin, h0, h1, h2, hbne, Bool.false_eq_true, if_false, h4, h5]
    apply List.mem_append_right
    simp

/-- Witness for amended claim C3: accepting the pending `t` into `R`. -/
theorem claim_C3_accept_join_witness :
    isMember (acceptJoin dir1 stC3 "o" "t").1 "R" "t" = true :=
  (claim_C3_accept_join dir1 stC3 "o" "t" "R" ⟨"o", "u1", none, some "R", ["R"]⟩ ⟨"u1"⟩
      ⟨"t", "u2", none⟩ ⟨"t", "u2", none, none, []⟩
      (by decide) (by decide) (by rfl) (by decide) (by decide) (by decide) (by decide)).2.1

end Signaling
